import Mathlib

/-!
Amplify composite resource identifiers, Amplify lookup accessors and the S3
bucket replication resource.

A shallow embedding of

* `aws/internal/service/amplify/id.go` (the two composite-ID codecs),
* `aws/internal/service/amplify/finder/finder.go` (the four lookup accessors),
* `aws/resource_aws_s3_bucket_replication.go` (the Read and Delete handlers),

followed by the theorems about them.

Go `string` values are modelled by Lean `String`.  A Go string is a byte
sequence; the only separator used here is the single byte `0x2F`, which never
occurs inside a multi-byte UTF-8 encoding, so cutting at the character `/`
agrees with Go's byte-level cut on every UTF-8 text.
-/

namespace TerraformAws

/-! ## The Go standard library functions used by the code -/

/-- Go `strings.Index` on character lists: the position of the first
occurrence of `sep` in `s`, or `none` (Go: `-1`) when there is none. -/
def Index : List Char → List Char → Option Nat
  | [], sep => if sep.isEmpty then some 0 else none
  | c :: cs, sep =>
    if sep.isPrefixOf (c :: cs) then some 0 else (Index cs sep).map (· + 1)

/-- The loop of Go `strings.genSplit` for a non-empty separator: as long as
`Index` finds the separator, cut the text before it off as one part and go on
behind it; what is left is the last part.  The first argument bounds the
number of cuts (Go sizes the result by `Count(s, sep) + 1`); `Split` passes
the length of the text, which no number of cuts can exceed. -/
def genSplit (sep : List Char) : Nat → List Char → List (List Char)
  | 0, s => [s]
  | n + 1, s =>
    match Index s sep with
    | none => [s]
    | some m => s.take m :: genSplit sep n (s.drop (m + sep.length))

/-- Go `strings.Split(s, sep)`: all substrings of `s` separated by `sep`.
With an empty separator Go splits after every UTF-8 sequence. -/
def Split (s sep : String) : List String :=
  if sep.data.isEmpty then s.data.map (fun c => String.mk [c])
  else (genSplit sep.data s.data.length s.data).map String.mk

/-- Go `strings.Join(elems, sep)`. -/
def Join : List String → String → String
  | [], _ => ""
  | [a], _ => a
  | a :: b :: rest, sep => a ++ sep ++ Join (b :: rest) sep

/-- The fragment of Go `fmt` formatting that this code uses.  The verb `%s`
prints the next operand as a string (`%!s(MISSING)` when none is left); the
verb `%[n]s` with an explicit one-digit argument index prints the n-th operand
(`%!s(BADINDEX)` when there is no such operand) and the operand after it
becomes the next one; every other character of the format is copied.  The
second argument is the zero-based number of the next operand. -/
def formatVerbs (args : List String) : Nat → List Char → List Char
  | argNum, '%' :: '[' :: d :: ']' :: 's' :: rest =>
    (if '1' ≤ d ∧ d ≤ '9' then
      match args.get? (d.toNat - '1'.toNat) with
      | some a => a.data
      | none => "%!s(BADINDEX)".data
    else "%!s(BADINDEX)".data) ++
      formatVerbs args (if '1' ≤ d ∧ d ≤ '9' then d.toNat - '1'.toNat + 1 else argNum) rest
  | argNum, '%' :: 's' :: rest =>
    (match args.get? argNum with
      | some a => a.data
      | none => "%!s(MISSING)".data) ++ formatVerbs args (argNum + 1) rest
  | argNum, c :: rest => c :: formatVerbs args argNum rest
  | _, [] => []

/-- Go `fmt.Sprintf` on the fragment of `formatVerbs`. -/
def Sprintf (format : String) (args : List String) : String :=
  String.mk (formatVerbs args 0 format.data)

/-- Go `fmt.Errorf`: an error value, represented by the text its `Error()`
method returns. -/
def Errorf (format : String) (args : List String) : String :=
  Sprintf format args

/-! ## `id.go` -/

def backendEnvironmentResourceIDSeparator : String := "/"

def BackendEnvironmentCreateResourceID (appID environmentName : String) : String :=
  let parts := [appID, environmentName]
  let id := Join parts backendEnvironmentResourceIDSeparator
  id

/-- The Go function returns `(string, string, error)`; the error is `none`
for Go `nil` and otherwise carries the error text.  `parts[i]` is read only
behind the length test, as in Go's short-circuit `&&`. -/
def BackendEnvironmentParseResourceID (id : String) : String × String × Option String :=
  let parts := Split id backendEnvironmentResourceIDSeparator
  if parts.length = 2 ∧ parts.getD 0 "" ≠ "" ∧ parts.getD 1 "" ≠ "" then
    (parts.getD 0 "", parts.getD 1 "", none)
  else
    ("", "", some (Errorf "unexpected format for ID (%[1]s), expected APPID%[2]sENVIRONMENTNAME"
      [id, backendEnvironmentResourceIDSeparator]))

def branchResourceIDSeparator : String := "/"

def BranchCreateResourceID (appID branchName : String) : String :=
  let parts := [appID, branchName]
  let id := Join parts branchResourceIDSeparator
  id

def BranchParseResourceID (id : String) : String × String × Option String :=
  let parts := Split id branchResourceIDSeparator
  if parts.length = 2 ∧ parts.getD 0 "" ≠ "" ∧ parts.getD 1 "" ≠ "" then
    (parts.getD 0 "", parts.getD 1 "", none)
  else
    ("", "", some (Errorf "unexpected format for ID (%[1]s), expected APPID%[2]sBRANCHNAME"
      [id, branchResourceIDSeparator]))

/-! ## Error values of the AWS SDK

The Go `error` values the SDK clients return, by dynamic type.  Every value
carries the text its `Error()` method returns. -/

/-- An error returned by an SDK call.
* `other`: a value implementing neither `awserr.Error` nor `Unwrap`;
* `awsError`: an `awserr.Error` that is not a `RequestFailure` (for example a
  failure to send the request, which has no HTTP response);
* `requestFailure`: an `awserr.RequestFailure`, which is also an
  `awserr.Error`, with the HTTP status code of the response;
* `wrapped`: an error wrapping another one (it has `Unwrap`). -/
inductive GoError where
  | other (text : String)
  | awsError (code text : String)
  | requestFailure (code text : String) (statusCode : Int)
  | wrapped (text : String) (inner : GoError)
  deriving DecidableEq

/-- Go `err.Error()`. -/
def GoError.Error : GoError → String
  | .other text => text
  | .awsError _ text => text
  | .requestFailure _ text _ => text
  | .wrapped text _ => text

/-- The type assertion `err.(awserr.Error)` followed by `Code()`: `none` when
the assertion fails.  A type assertion looks at the value itself only. -/
def GoError.assertAwsError : GoError → Option String
  | .awsError code _ => some code
  | .requestFailure code _ _ => some code
  | _ => none

/-- The type assertion `err.(awserr.RequestFailure)` followed by
`StatusCode()`: `none` when the assertion fails. -/
def GoError.assertRequestFailure : GoError → Option Int
  | .requestFailure _ _ statusCode => some statusCode
  | _ => none

/-- Go `errors.As(err, &awsErr)` for `awsErr awserr.Error`, followed by
`Code()`: the first error of the `Unwrap` chain that is an `awserr.Error`. -/
def GoError.asAwsError : GoError → Option String
  | .other _ => none
  | .awsError code _ => some code
  | .requestFailure code _ _ => some code
  | .wrapped _ inner => inner.asAwsError

/-- The helper `tfawserr.ErrCodeEquals(err, code)` of aws-sdk-go-base: `err`
is or wraps an `awserr.Error` whose code is `code`; false for a nil error. -/
def ErrCodeEquals (err : Option GoError) (code : String) : Bool :=
  match err with
  | none => false
  | some e =>
    match e.asAwsError with
    | some c => c == code
    | none => false

/-! ## `finder.go`

The entity types (`amplify.App`, ...) are declared by the AWS SDK; the
accessors only pass them on, so they are type parameters here.  A pointer
that may be nil is an `Option`; `aws.String(id)` is never nil. -/

/-- The constant `amplify.ErrCodeNotFoundException` of the AWS SDK. -/
def ErrCodeNotFoundException : String := "NotFoundException"

structure GetAppInput where
  AppId : String
  deriving DecidableEq

structure GetAppOutput (TApp : Type) where
  App : Option TApp

structure GetBackendEnvironmentInput where
  AppId : String
  EnvironmentName : String
  deriving DecidableEq

structure GetBackendEnvironmentOutput (TBackendEnvironment : Type) where
  BackendEnvironment : Option TBackendEnvironment

structure GetBranchInput where
  AppId : String
  BranchName : String
  deriving DecidableEq

structure GetBranchOutput (TBranch : Type) where
  Branch : Option TBranch

structure GetWebhookInput where
  WebhookId : String
  deriving DecidableEq

structure GetWebhookOutput (TWebhook : Type) where
  Webhook : Option TWebhook

/-- The client `*amplify.Amplify`: each call answers a request with the pair
`(output, err)` of the Go method. -/
structure AmplifyConn (TApp TBackendEnvironment TBranch TWebhook : Type) where
  GetApp : GetAppInput → Option (GetAppOutput TApp) × Option GoError
  GetBackendEnvironment : GetBackendEnvironmentInput →
    Option (GetBackendEnvironmentOutput TBackendEnvironment) × Option GoError
  GetBranch : GetBranchInput → Option (GetBranchOutput TBranch) × Option GoError
  GetWebhook : GetWebhookInput → Option (GetWebhookOutput TWebhook) × Option GoError

/-- The struct `resource.NotFoundError` of the plugin SDK, with the fields the
accessors set (`Message` is the empty string when not set). -/
structure NotFoundError (Req : Type) where
  LastError : Option GoError
  LastRequest : Req
  Message : String
  deriving DecidableEq

/-- The `error` an accessor returns: a `*resource.NotFoundError` it built, or
the error of the API call itself.  The AWS SDK does not know the plugin SDK,
so an API call never returns a `*resource.NotFoundError`. -/
inductive LookupError (Req : Type) where
  | notFound (e : NotFoundError Req)
  | api (err : GoError)
  deriving DecidableEq

def AppByID {TApp TBackendEnvironment TBranch TWebhook : Type}
    (conn : AmplifyConn TApp TBackendEnvironment TBranch TWebhook) (id : String) :
    Option TApp × Option (LookupError GetAppInput) :=
  let input : GetAppInput := { AppId := id }
  let (output, err) := conn.GetApp input
  if ErrCodeEquals err ErrCodeNotFoundException then
    (none, some (.notFound { LastError := err, LastRequest := input, Message := "" }))
  else
    match err with
    | some e => (none, some (.api e))
    | none =>
      match output.bind (·.App) with
      | none =>
        (none, some (.notFound { LastError := none, LastRequest := input, Message := "Empty result" }))
      | some app => (some app, none)

def BackendEnvironmentByAppIDAndEnvironmentName {TApp TBackendEnvironment TBranch TWebhook : Type}
    (conn : AmplifyConn TApp TBackendEnvironment TBranch TWebhook) (appID environmentName : String) :
    Option TBackendEnvironment × Option (LookupError GetBackendEnvironmentInput) :=
  let input : GetBackendEnvironmentInput := { AppId := appID, EnvironmentName := environmentName }
  let (output, err) := conn.GetBackendEnvironment input
  if ErrCodeEquals err ErrCodeNotFoundException then
    (none, some (.notFound { LastError := err, LastRequest := input, Message := "" }))
  else
    match err with
    | some e => (none, some (.api e))
    | none =>
      match output.bind (·.BackendEnvironment) with
      | none =>
        (none, some (.notFound { LastError := none, LastRequest := input, Message := "Empty result" }))
      | some backendEnvironment => (some backendEnvironment, none)

def BranchByAppIDAndBranchName {TApp TBackendEnvironment TBranch TWebhook : Type}
    (conn : AmplifyConn TApp TBackendEnvironment TBranch TWebhook) (appID branchName : String) :
    Option TBranch × Option (LookupError GetBranchInput) :=
  let input : GetBranchInput := { AppId := appID, BranchName := branchName }
  let (output, err) := conn.GetBranch input
  if ErrCodeEquals err ErrCodeNotFoundException then
    (none, some (.notFound { LastError := err, LastRequest := input, Message := "" }))
  else
    match err with
    | some e => (none, some (.api e))
    | none =>
      match output.bind (·.Branch) with
      | none =>
        (none, some (.notFound { LastError := none, LastRequest := input, Message := "Empty result" }))
      | some branch => (some branch, none)

def WebhookByID {TApp TBackendEnvironment TBranch TWebhook : Type}
    (conn : AmplifyConn TApp TBackendEnvironment TBranch TWebhook) (id : String) :
    Option TWebhook × Option (LookupError GetWebhookInput) :=
  let input : GetWebhookInput := { WebhookId := id }
  let (output, err) := conn.GetWebhook input
  if ErrCodeEquals err ErrCodeNotFoundException then
    (none, some (.notFound { LastError := err, LastRequest := input, Message := "" }))
  else
    match err with
    | some e => (none, some (.api e))
    | none =>
      match output.bind (·.Webhook) with
      | none =>
        (none, some (.notFound { LastError := none, LastRequest := input, Message := "Empty result" }))
      | some webhook => (some webhook, none)

/-! ## `resource_aws_s3_bucket_replication.go`: Read and Delete

`TConfig` is the SDK type `s3.ReplicationConfiguration` and `TValue` the value
`flattenAwsS3BucketReplicationConfiguration` produces for the field
`replication_configuration`; that function is defined in another file of the
provider and is a parameter of `resourceAwsS3BucketReplicationRead`. -/

structure GetBucketReplicationInput where
  Bucket : String
  deriving DecidableEq

structure GetBucketReplicationOutput (TConfig : Type) where
  ReplicationConfiguration : Option TConfig

structure DeleteBucketReplicationInput where
  Bucket : String
  deriving DecidableEq

/-- The client `s3conn`.  A generated SDK method returns the output struct its
request constructor allocated together with the error of `Send`, so the output
pointer is never nil, also when the call fails.  The handler discards the
output of `DeleteBucketReplication`, so only its error is kept. -/
structure S3Conn (TConfig : Type) where
  GetBucketReplication : GetBucketReplicationInput →
    GetBucketReplicationOutput TConfig × Option GoError
  DeleteBucketReplication : DeleteBucketReplicationInput → Option GoError

/-- The part of `*schema.ResourceData` the two handlers touch: the resource ID
(`d.Id()`, `d.SetId`), the field `bucket` and the field
`replication_configuration`. -/
structure ResourceData (TValue : Type) where
  Id : String
  bucket : String
  replication_configuration : TValue
  deriving DecidableEq

/-- A handler returns its `error`; the second component is the resource data
it leaves behind.  `setError v` is the error of
`d.Set("replication_configuration", v)`, which stores `v` when it returns nil
and stores nothing otherwise. -/
def resourceAwsS3BucketReplicationRead {TConfig TValue : Type}
    (flattenAwsS3BucketReplicationConfiguration : TConfig → TValue)
    (setError : TValue → Option GoError)
    (s3conn : S3Conn TConfig) (d : ResourceData TValue) :
    Option GoError × ResourceData TValue :=
  let (replication, err) := s3conn.GetBucketReplication { Bucket := d.Id }
  let returnErr : Bool :=
    match err with
    | some e =>
      match e.assertRequestFailure with
      | some statusCode => statusCode != 404
      | none => false
    | none => false
  if returnErr then (err, d)
  else
    match replication.ReplicationConfiguration with
    | some r =>
      match setError (flattenAwsS3BucketReplicationConfiguration r) with
      | some err => (some err, d)
      | none =>
        (none, { d with replication_configuration := flattenAwsS3BucketReplicationConfiguration r })
    | none => (none, d)

def resourceAwsS3BucketReplicationDelete {TConfig TValue : Type}
    (s3conn : S3Conn TConfig) (d : ResourceData TValue) :
    Option GoError × ResourceData TValue :=
  let bucket := d.bucket
  let err := s3conn.DeleteBucketReplication { Bucket := bucket }
  match err with
  | some e =>
    if e.assertAwsError = some "NoSuchBucket" then (none, d)
    else (some (.other (Errorf "Error deleting S3 replication configuration: %s" [e.Error])), d)
  | none => (none, { d with Id := "" })

/-! ## The contract of a lookup accessor -/

/-- The not-found normalisation of a lookup accessor at one API outcome:
`input` is the request, `entity` the entity of the output (`none` when the
output or its entity field is nil), `err` the error of the call and `result`
what the accessor returns.
1. a `NotFoundError` is returned exactly for the not-found code and for a
   success without entity;
2. for the not-found code it carries the error of the call, and
3. for a success without entity the message `Empty result`;
4. every other error of the call is returned as it is;
5. a success with an entity returns the entity;
6. exactly one of the returned entity and the returned error is non-nil. -/
def NormalisesNotFound {Req E : Type} (input : Req) (entity : Option E) (err : Option GoError)
    (result : Option E × Option (LookupError Req)) : Prop :=
  ((∃ nf, result = (none, some (LookupError.notFound nf))) ↔
    (ErrCodeEquals err ErrCodeNotFoundException = true ∨ (err = none ∧ entity = none))) ∧
  (ErrCodeEquals err ErrCodeNotFoundException = true →
    result = (none, some (LookupError.notFound
      { LastError := err, LastRequest := input, Message := "" }))) ∧
  (err = none → entity = none →
    result = (none, some (LookupError.notFound
      { LastError := none, LastRequest := input, Message := "Empty result" }))) ∧
  (∀ e, err = some e → ErrCodeEquals err ErrCodeNotFoundException = false →
    result = (none, some (LookupError.api e))) ∧
  (∀ x, err = none → entity = some x → result = (some x, none)) ∧
  ((result.1 = none ∧ result.2 ≠ none) ∨ (result.1 ≠ none ∧ result.2 = none))

/-! ## Lemmas on cutting at `/` -/

theorem isPrefixOf_slash (c : Char) (cs : List Char) :
    List.isPrefixOf ['/'] (c :: cs) = decide (c = '/') := by
  by_cases h : c = '/'
  · subst h; simp [List.isPrefixOf]
  · have h2 : ¬ ('/' = c) := fun e => h e.symm
    simp [List.isPrefixOf, h, h2]

theorem Index_slash_of_not_mem (s : List Char) (h : '/' ∉ s) : Index s ['/'] = none := by
  induction s with
  | nil => rfl
  | cons c cs ih =>
    have hc : c ≠ '/' := fun e => h (by simp [e])
    have hcs : '/' ∉ cs := fun e => h (by simp [e])
    simp [Index, isPrefixOf_slash, hc, ih hcs]

theorem Index_slash_append (a r : List Char) (h : '/' ∉ a) :
    Index (a ++ '/' :: r) ['/'] = some a.length := by
  induction a with
  | nil => simp [Index, isPrefixOf_slash]
  | cons c cs ih =>
    have hc : c ≠ '/' := fun e => h (by simp [e])
    have hcs : '/' ∉ cs := fun e => h (by simp [e])
    simp [Index, isPrefixOf_slash, hc, ih hcs]

theorem Index_slash_none (s : List Char) (h : Index s ['/'] = none) : '/' ∉ s := by
  induction s with
  | nil => simp
  | cons c cs ih =>
    by_cases hc : c = '/'
    · simp [Index, isPrefixOf_slash, hc] at h
    · simp [Index, isPrefixOf_slash, hc] at h
      have := ih h
      simp [this, Ne.symm hc]

theorem Index_slash_some (s : List Char) (m : Nat) (h : Index s ['/'] = some m) :
    ∃ a r, s = a ++ '/' :: r ∧ '/' ∉ a ∧ m = a.length := by
  induction s generalizing m with
  | nil => simp [Index] at h
  | cons c cs ih =>
    by_cases hc : c = '/'
    · simp [Index, isPrefixOf_slash, hc] at h
      exact ⟨[], cs, by simp [hc], by simp, by simp [h]⟩
    · simp [Index, isPrefixOf_slash, hc] at h
      obtain ⟨k, hk, hm⟩ := h
      obtain ⟨a, r, hs, ha, hl⟩ := ih k hk
      refine ⟨c :: a, r, by simp [hs], ?_, by simp [← hm, hl]⟩
      simp [ha, Ne.symm hc]

theorem genSplit_slash_of_not_mem (n : Nat) (s : List Char) (h : '/' ∉ s) :
    genSplit ['/'] n s = [s] := by
  cases n with
  | zero => rfl
  | succ n => simp [genSplit, Index_slash_of_not_mem s h]

theorem genSplit_slash_append (n : Nat) (a r : List Char) (h : '/' ∉ a) :
    genSplit ['/'] (n + 1) (a ++ '/' :: r) = a :: genSplit ['/'] n r := by
  simp [genSplit, Index_slash_append a r h]

theorem genSplit_ne_nil (sep : List Char) (n : Nat) (s : List Char) : genSplit sep n s ≠ [] := by
  cases n with
  | zero => simp [genSplit]
  | succ n =>
    simp only [genSplit]
    split <;> simp

theorem genSplit_slash_single (n : Nat) (s d : List Char) (hn : s.length ≤ n)
    (h : genSplit ['/'] n s = [d]) : s = d ∧ '/' ∉ d := by
  cases n with
  | zero =>
    have hs : s = [] := List.length_eq_zero.mp (Nat.le_zero.mp hn)
    subst hs
    simp [genSplit] at h
    subst h
    simp
  | succ n =>
    cases hi : Index s ['/'] with
    | none =>
      simp [genSplit, hi] at h
      subst h
      exact ⟨rfl, Index_slash_none s hi⟩
    | some m =>
      simp [genSplit, hi] at h
      exact absurd h.2 (genSplit_ne_nil _ _ _)

theorem genSplit_slash_pair (n : Nat) (s p d : List Char) (hn : s.length ≤ n)
    (h : genSplit ['/'] n s = [p, d]) : s = p ++ '/' :: d ∧ '/' ∉ p ∧ '/' ∉ d := by
  cases n with
  | zero => simp [genSplit] at h
  | succ n =>
    cases hi : Index s ['/'] with
    | none => simp [genSplit, hi] at h
    | some m =>
      obtain ⟨a, r, hs, ha, hm⟩ := Index_slash_some s m hi
      subst hs
      rw [genSplit_slash_append n a r ha] at h
      simp at h
      obtain ⟨hap, hr⟩ := h
      subst hap
      have hlen : r.length ≤ n := by simp at hn; omega
      obtain ⟨hrd, hd⟩ := genSplit_slash_single n r d hlen hr
      subst hrd
      exact ⟨rfl, ha, hd⟩

theorem Split_slash (id : String) :
    Split id "/" = (genSplit ['/'] id.data.length id.data).map String.mk := by
  simp [Split]

theorem data_join_slash (p d : String) : (p ++ "/" ++ d).data = p.data ++ '/' :: d.data := by
  simp [String.data_append]

theorem Split_slash_pair_iff (id p d : String) :
    Split id "/" = [p, d] ↔ id = p ++ "/" ++ d ∧ '/' ∉ p.data ∧ '/' ∉ d.data := by
  rw [Split_slash]
  constructor
  · intro h
    have h2 := congrArg (List.map String.data) h
    simp only [List.map_map, List.map_cons, List.map_nil] at h2
    have hid : (String.data ∘ String.mk) = (fun x : List Char => x) := by funext x; rfl
    rw [hid, List.map_id'] at h2
    obtain ⟨h3, hp, hd⟩ := genSplit_slash_pair _ _ _ _ (le_refl _) h2
    refine ⟨?_, hp, hd⟩
    apply String.ext
    rw [data_join_slash]
    exact h3
  · rintro ⟨rfl, hp, hd⟩
    rw [data_join_slash]
    have hlen : (p.data ++ '/' :: d.data).length = (p.data.length + d.data.length) + 1 := by
      simp; omega
    rw [hlen, genSplit_slash_append _ _ _ hp, genSplit_slash_of_not_mem _ _ hd]
    rfl

/-- The test both parse functions apply to the parts of the split. -/
theorem parts_test_ok_iff (parts : List String) (e p d : String) :
    (if parts.length = 2 ∧ parts.getD 0 "" ≠ "" ∧ parts.getD 1 "" ≠ "" then
        (parts.getD 0 "", parts.getD 1 "", (none : Option String))
      else ("", "", some e)) = (p, d, none) ↔ parts = [p, d] ∧ p ≠ "" ∧ d ≠ "" := by
  constructor
  · intro h
    split at h
    · rename_i hc
      obtain ⟨hl, h0, h1⟩ := hc
      match parts, hl with
      | [x, y], _ =>
        simp at h h0 h1
        obtain ⟨rfl, rfl⟩ := h
        exact ⟨rfl, h0, h1⟩
    · simp at h
  · rintro ⟨rfl, hp, hd⟩
    simp [hp, hd]

theorem parts_test_cases (parts : List String) (e : String) :
    (∃ p d, parts = [p, d] ∧ p ≠ "" ∧ d ≠ "") ∨
    (if parts.length = 2 ∧ parts.getD 0 "" ≠ "" ∧ parts.getD 1 "" ≠ "" then
        (parts.getD 0 "", parts.getD 1 "", (none : Option String))
      else ("", "", some e)) = ("", "", some e) := by
  by_cases hc : parts.length = 2 ∧ parts.getD 0 "" ≠ "" ∧ parts.getD 1 "" ≠ ""
  · left
    obtain ⟨hl, h0, h1⟩ := hc
    match parts, hl with
    | [x, y], _ =>
      simp at h0 h1
      exact ⟨x, y, rfl, h0, h1⟩
  · right
    rw [if_neg hc]

theorem BackendEnvironment_error_text (id : String) :
    Errorf "unexpected format for ID (%[1]s), expected APPID%[2]sENVIRONMENTNAME"
      [id, backendEnvironmentResourceIDSeparator] =
    "unexpected format for ID (" ++ id ++ "), expected APPID/ENVIRONMENTNAME" := rfl

theorem Branch_error_text (id : String) :
    Errorf "unexpected format for ID (%[1]s), expected APPID%[2]sBRANCHNAME"
      [id, branchResourceIDSeparator] =
    "unexpected format for ID (" ++ id ++ "), expected APPID/BRANCHNAME" := rfl

theorem BackendEnvironmentParse_ok_iff (id p d : String) :
    BackendEnvironmentParseResourceID id = (p, d, none) ↔
      id = p ++ "/" ++ d ∧ p ≠ "" ∧ d ≠ "" ∧ '/' ∉ p.data ∧ '/' ∉ d.data := by
  have h := parts_test_ok_iff (Split id "/")
    (Errorf "unexpected format for ID (%[1]s), expected APPID%[2]sENVIRONMENTNAME"
      [id, backendEnvironmentResourceIDSeparator]) p d
  rw [Split_slash_pair_iff] at h
  have e : BackendEnvironmentParseResourceID id = (p, d, none) ↔
      (id = p ++ "/" ++ d ∧ '/' ∉ p.data ∧ '/' ∉ d.data) ∧ p ≠ "" ∧ d ≠ "" := h
  rw [e]
  tauto

theorem BranchParse_ok_iff (id p d : String) :
    BranchParseResourceID id = (p, d, none) ↔
      id = p ++ "/" ++ d ∧ p ≠ "" ∧ d ≠ "" ∧ '/' ∉ p.data ∧ '/' ∉ d.data := by
  have h := parts_test_ok_iff (Split id "/")
    (Errorf "unexpected format for ID (%[1]s), expected APPID%[2]sBRANCHNAME"
      [id, branchResourceIDSeparator]) p d
  rw [Split_slash_pair_iff] at h
  have e : BranchParseResourceID id = (p, d, none) ↔
      (id = p ++ "/" ++ d ∧ '/' ∉ p.data ∧ '/' ∉ d.data) ∧ p ≠ "" ∧ d ≠ "" := h
  rw [e]
  tauto

theorem BackendEnvironmentParse_cases (id : String) :
    (∃ p d, BackendEnvironmentParseResourceID id = (p, d, none)) ∨
    BackendEnvironmentParseResourceID id =
      ("", "", some ("unexpected format for ID (" ++ id ++ "), expected APPID/ENVIRONMENTNAME")) := by
  rcases parts_test_cases (Split id "/")
    (Errorf "unexpected format for ID (%[1]s), expected APPID%[2]sENVIRONMENTNAME"
      [id, backendEnvironmentResourceIDSeparator]) with ⟨p, d, h, hp, hd⟩ | h
  · left
    exact ⟨p, d, (BackendEnvironmentParse_ok_iff id p d).mpr
      (by rw [Split_slash_pair_iff] at h; tauto)⟩
  · right
    rw [BackendEnvironment_error_text] at h
    exact h

theorem BranchParse_cases (id : String) :
    (∃ p d, BranchParseResourceID id = (p, d, none)) ∨
    BranchParseResourceID id =
      ("", "", some ("unexpected format for ID (" ++ id ++ "), expected APPID/BRANCHNAME")) := by
  rcases parts_test_cases (Split id "/")
    (Errorf "unexpected format for ID (%[1]s), expected APPID%[2]sBRANCHNAME"
      [id, branchResourceIDSeparator]) with ⟨p, d, h, hp, hd⟩ | h
  · left
    exact ⟨p, d, (BranchParse_ok_iff id p d).mpr
      (by rw [Split_slash_pair_iff] at h; tauto)⟩
  · right
    rw [Branch_error_text] at h
    exact h

theorem join_slash_unique (a b p d : String) (h : a ++ "/" ++ b = p ++ "/" ++ d)
    (hp : '/' ∉ p.data) (hd : '/' ∉ d.data) : '/' ∉ a.data ∧ '/' ∉ b.data := by
  have h2 := congrArg (fun s : String => s.data.count '/') h
  simp only [data_join_slash, List.count_append, List.count_cons_self,
    List.count_eq_zero_of_not_mem hp, List.count_eq_zero_of_not_mem hd] at h2
  have ha : a.data.count '/' = 0 := by omega
  have hb : b.data.count '/' = 0 := by omega
  exact ⟨List.count_eq_zero.mp ha, List.count_eq_zero.mp hb⟩

theorem normalisesNotFound_core {Req E : Type} (input : Req) (entity : Option E)
    (err : Option GoError) :
    NormalisesNotFound input entity err
      (if ErrCodeEquals err ErrCodeNotFoundException then
        (none, some (.notFound { LastError := err, LastRequest := input, Message := "" }))
      else
        match err with
        | some e => (none, some (.api e))
        | none =>
          match entity with
          | none =>
            (none, some (.notFound
              { LastError := none, LastRequest := input, Message := "Empty result" }))
          | some x => (some x, none)) := by
  unfold NormalisesNotFound
  cases hc : ErrCodeEquals err ErrCodeNotFoundException with
  | true =>
    have hne : err ≠ none := by
      intro h; subst h; simp [ErrCodeEquals] at hc
    simp [hne]
  | false =>
    cases err with
    | some e => simp
    | none =>
      cases entity with
      | none => simp
      | some x => simp

/-! ## The composite-ID codec -/

/-- C1: decoding an encoded pair of non-empty components without `/` gives the
pair back with a nil error, for the backend-environment codec and for the
branch codec. -/
theorem resourceID_roundtrip (a b : String) (ha : a ≠ "") (hb : b ≠ "")
    (hsa : '/' ∉ a.data) (hsb : '/' ∉ b.data) :
    BackendEnvironmentParseResourceID (BackendEnvironmentCreateResourceID a b) = (a, b, none) ∧
    BranchParseResourceID (BranchCreateResourceID a b) = (a, b, none) :=
  ⟨(BackendEnvironmentParse_ok_iff (a ++ "/" ++ b) a b).mpr ⟨rfl, ha, hb, hsa, hsb⟩,
   (BranchParse_ok_iff (a ++ "/" ++ b) a b).mpr ⟨rfl, ha, hb, hsa, hsb⟩⟩

theorem resourceID_roundtrip_witness :
    "app123" ≠ "" ∧ "envname" ≠ "" ∧ '/' ∉ "app123".data ∧ '/' ∉ "envname".data ∧
    BackendEnvironmentParseResourceID (BackendEnvironmentCreateResourceID "app123" "envname") =
      ("app123", "envname", none) ∧
    BranchParseResourceID (BranchCreateResourceID "app123" "envname") =
      ("app123", "envname", none) :=
  ⟨by decide, by decide, by decide, by decide,
    resourceID_roundtrip "app123" "envname" (by decide) (by decide) (by decide) (by decide)⟩

/-- C2: `BackendEnvironmentParseResourceID id` returns `(p, d)` with a nil
error exactly when `id` is `p`, `/`, `d` with `p` and `d` non-empty and free
of `/`; on every other `id` it returns two empty strings and an error, as on
the five malformed identifiers listed. -/
theorem BackendEnvironmentParseResourceID_success_iff :
    (∀ id p d : String, BackendEnvironmentParseResourceID id = (p, d, none) ↔
      (id = p ++ "/" ++ d ∧ p ≠ "" ∧ d ≠ "" ∧ '/' ∉ p.data ∧ '/' ∉ d.data)) ∧
    (∀ id : String,
      (¬ ∃ p d : String, id = p ++ "/" ++ d ∧ p ≠ "" ∧ d ≠ "" ∧ '/' ∉ p.data ∧ '/' ∉ d.data) →
      ∃ m, BackendEnvironmentParseResourceID id = ("", "", some m)) ∧
    BackendEnvironmentParseResourceID "" =
      ("", "", some "unexpected format for ID (), expected APPID/ENVIRONMENTNAME") ∧
    BackendEnvironmentParseResourceID "onlyone" =
      ("", "", some "unexpected format for ID (onlyone), expected APPID/ENVIRONMENTNAME") ∧
    BackendEnvironmentParseResourceID "a/b/c" =
      ("", "", some "unexpected format for ID (a/b/c), expected APPID/ENVIRONMENTNAME") ∧
    BackendEnvironmentParseResourceID "/b" =
      ("", "", some "unexpected format for ID (/b), expected APPID/ENVIRONMENTNAME") ∧
    BackendEnvironmentParseResourceID "a/" =
      ("", "", some "unexpected format for ID (a/), expected APPID/ENVIRONMENTNAME") ∧
    BackendEnvironmentParseResourceID "app123/envname" = ("app123", "envname", none) := by
  refine ⟨BackendEnvironmentParse_ok_iff, ?_, by decide, by decide, by decide, by decide,
    by decide, by decide⟩
  intro id hno
  rcases BackendEnvironmentParse_cases id with ⟨p, d, h⟩ | h
  · exact absurd ⟨p, d, (BackendEnvironmentParse_ok_iff id p d).mp h⟩ hno
  · exact ⟨_, h⟩

/-- C3: both create functions join their two arguments with `/`, whatever the
arguments are. -/
theorem CreateResourceID_eq_join (appID name : String) :
    BackendEnvironmentCreateResourceID appID name = appID ++ "/" ++ name ∧
    BranchCreateResourceID appID name = appID ++ "/" ++ name ∧
    BackendEnvironmentCreateResourceID "app123" "envname" = "app123/envname" ∧
    BranchCreateResourceID "app123" "envname" = "app123/envname" :=
  ⟨rfl, rfl, by decide, by decide⟩

/-- C4, as stated, fails: with an empty first component, free of `/`, the
encoded identifier `/envname` does not decode to the pair. -/
theorem roundtrip_fails_on_empty_component :
    '/' ∉ "".data ∧ '/' ∉ "envname".data ∧
    BackendEnvironmentParseResourceID (BackendEnvironmentCreateResourceID "" "envname") =
      ("", "", some "unexpected format for ID (/envname), expected APPID/ENVIRONMENTNAME") ∧
    BackendEnvironmentParseResourceID (BackendEnvironmentCreateResourceID "" "envname") ≠
      ("", "envname", none) := by
  decide

/-- C4, amended: for components free of `/` the round trip succeeds exactly
when both are non-empty; when one is empty, decoding the encoded identifier
returns two empty strings and the malformed-identifier error. -/
theorem roundtrip_iff_nonempty (a b : String) (hsa : '/' ∉ a.data) (hsb : '/' ∉ b.data) :
    (BackendEnvironmentParseResourceID (BackendEnvironmentCreateResourceID a b) = (a, b, none) ↔
      (a ≠ "" ∧ b ≠ "")) ∧
    ((a = "" ∨ b = "") →
      BackendEnvironmentParseResourceID (BackendEnvironmentCreateResourceID a b) =
        ("", "", some ("unexpected format for ID (" ++ (a ++ "/" ++ b) ++
          "), expected APPID/ENVIRONMENTNAME"))) := by
  have key := BackendEnvironmentParse_ok_iff (a ++ "/" ++ b) a b
  have hiff : BackendEnvironmentParseResourceID (BackendEnvironmentCreateResourceID a b) =
      (a, b, none) ↔ (a ≠ "" ∧ b ≠ "") := by
    constructor
    · intro h
      have := key.mp h
      exact ⟨this.2.1, this.2.2.1⟩
    · rintro ⟨ha, hb⟩
      exact key.mpr ⟨rfl, ha, hb, hsa, hsb⟩
  refine ⟨hiff, ?_⟩
  intro hempty
  rcases BackendEnvironmentParse_cases (a ++ "/" ++ b) with ⟨p, d, h⟩ | h
  · exfalso
    obtain ⟨he, hp, hd, hsp, hsd⟩ := (BackendEnvironmentParse_ok_iff _ p d).mp h
    have hdata := congrArg String.data he
    rw [data_join_slash, data_join_slash] at hdata
    have hpa : a.data = p.data ∧ b.data = d.data := by
      have h1 := List.append_eq_append_iff.mp hdata
      rcases h1 with ⟨c, hc1, hc2⟩ | ⟨c, hc1, hc2⟩
      · cases c with
        | nil => simp at hc1 hc2; exact ⟨hc1.symm, hc2⟩
        | cons x xs =>
          simp at hc2
          obtain ⟨rfl, hc3⟩ := hc2
          rw [hc1] at hsp
          simp at hsp
      · cases c with
        | nil => simp at hc1 hc2; exact ⟨hc1, hc2.symm⟩
        | cons x xs =>
          simp at hc2
          obtain ⟨rfl, hc3⟩ := hc2
          rw [hc1] at hsa
          simp at hsa
    rcases hempty with h0 | h0
    · apply hp
      apply String.ext
      rw [← hpa.1, h0]
    · apply hd
      apply String.ext
      rw [← hpa.2, h0]
  · exact h

theorem roundtrip_iff_nonempty_witness :
    '/' ∉ "".data ∧ '/' ∉ "envname".data ∧
    ((BackendEnvironmentParseResourceID (BackendEnvironmentCreateResourceID "" "envname") =
        ("", "envname", none) ↔ ("" ≠ "" ∧ "envname" ≠ "")) ∧
     (("" = "" ∨ "envname" = "") →
      BackendEnvironmentParseResourceID (BackendEnvironmentCreateResourceID "" "envname") =
        ("", "", some ("unexpected format for ID (" ++ ("" ++ "/" ++ "envname") ++
          "), expected APPID/ENVIRONMENTNAME")))) :=
  ⟨by decide, by decide, roundtrip_iff_nonempty "" "envname" (by decide) (by decide)⟩

/-- C5, as stated, fails: with the discriminator `env/name` the encoded
identifier has three parts and both parse functions return the error, not a
pair with a nil error. -/
theorem separator_in_discriminator_is_rejected :
    "app123" ≠ "" ∧ "env/name" ≠ "" ∧ '/' ∈ "env/name".data ∧
    Split (BackendEnvironmentCreateResourceID "app123" "env/name") "/" = ["app123", "env", "name"] ∧
    BackendEnvironmentParseResourceID (BackendEnvironmentCreateResourceID "app123" "env/name") =
      ("", "", some "unexpected format for ID (app123/env/name), expected APPID/ENVIRONMENTNAME") ∧
    BranchParseResourceID (BranchCreateResourceID "app123" "env/name") =
      ("", "", some "unexpected format for ID (app123/env/name), expected APPID/BRANCHNAME") ∧
    ¬ ∃ p d : String,
      BackendEnvironmentParseResourceID (BackendEnvironmentCreateResourceID "app123" "env/name") =
        (p, d, none) := by
  refine ⟨by decide, by decide, by decide, by decide, by decide, by decide, ?_⟩
  rintro ⟨p, d, h⟩
  have e : BackendEnvironmentParseResourceID
      (BackendEnvironmentCreateResourceID "app123" "env/name") =
      ("", "", some "unexpected format for ID (app123/env/name), expected APPID/ENVIRONMENTNAME") := by
    decide
  rw [e] at h
  simp at h

/-- C5, amended: when a component contains `/`, decoding the encoded
identifier returns two empty strings and the malformed-identifier error, for
both codecs; no pair is returned. -/
theorem roundtrip_rejects_embedded_separator (a b : String)
    (h : '/' ∈ a.data ∨ '/' ∈ b.data) :
    BackendEnvironmentParseResourceID (BackendEnvironmentCreateResourceID a b) =
      ("", "", some ("unexpected format for ID (" ++ (a ++ "/" ++ b) ++
        "), expected APPID/ENVIRONMENTNAME")) ∧
    BranchParseResourceID (BranchCreateResourceID a b) =
      ("", "", some ("unexpected format for ID (" ++ (a ++ "/" ++ b) ++
        "), expected APPID/BRANCHNAME")) := by
  constructor
  · rcases BackendEnvironmentParse_cases (a ++ "/" ++ b) with ⟨p, d, hp⟩ | hp
    · exfalso
      obtain ⟨he, _, _, hsp, hsd⟩ := (BackendEnvironmentParse_ok_iff _ p d).mp hp
      obtain ⟨h1, h2⟩ := join_slash_unique a b p d he hsp hsd
      rcases h with h | h
      · exact h1 h
      · exact h2 h
    · exact hp
  · rcases BranchParse_cases (a ++ "/" ++ b) with ⟨p, d, hp⟩ | hp
    · exfalso
      obtain ⟨he, _, _, hsp, hsd⟩ := (BranchParse_ok_iff _ p d).mp hp
      obtain ⟨h1, h2⟩ := join_slash_unique a b p d he hsp hsd
      rcases h with h | h
      · exact h1 h
      · exact h2 h
    · exact hp

theorem roundtrip_rejects_embedded_separator_witness :
    ('/' ∈ "app123".data ∨ '/' ∈ "feature/login".data) ∧
    BackendEnvironmentParseResourceID (BackendEnvironmentCreateResourceID "app123" "feature/login") =
      ("", "", some ("unexpected format for ID (" ++ ("app123" ++ "/" ++ "feature/login") ++
        "), expected APPID/ENVIRONMENTNAME")) ∧
    BranchParseResourceID (BranchCreateResourceID "app123" "feature/login") =
      ("", "", some ("unexpected format for ID (" ++ ("app123" ++ "/" ++ "feature/login") ++
        "), expected APPID/BRANCHNAME")) :=
  ⟨by decide, roundtrip_rejects_embedded_separator "app123" "feature/login" (by decide)⟩

/-- C6: whenever a parse function returns an error, its text is
`unexpected format for ID (`, the identifier as given, `), expected `, and
`APPID/ENVIRONMENTNAME` or `APPID/BRANCHNAME`; it holds the raw identifier, the
separator and the two field names. -/
theorem ParseResourceID_error_text (id : String) :
    (∀ m, (BackendEnvironmentParseResourceID id).2.2 = some m →
      m = "unexpected format for ID (" ++ id ++ "), expected APPID/ENVIRONMENTNAME" ∧
      m = "unexpected format for ID (" ++ id ++ "), expected " ++
        "APPID" ++ backendEnvironmentResourceIDSeparator ++ "ENVIRONMENTNAME") ∧
    (∀ m, (BranchParseResourceID id).2.2 = some m →
      m = "unexpected format for ID (" ++ id ++ "), expected APPID/BRANCHNAME" ∧
      m = "unexpected format for ID (" ++ id ++ "), expected " ++
        "APPID" ++ branchResourceIDSeparator ++ "BRANCHNAME") := by
  have e1 : "unexpected format for ID (" ++ id ++ "), expected " ++
      "APPID" ++ backendEnvironmentResourceIDSeparator ++ "ENVIRONMENTNAME" =
      "unexpected format for ID (" ++ id ++ "), expected APPID/ENVIRONMENTNAME" := by
    apply String.ext; simp [String.data_append, backendEnvironmentResourceIDSeparator]
  have e2 : "unexpected format for ID (" ++ id ++ "), expected " ++
      "APPID" ++ branchResourceIDSeparator ++ "BRANCHNAME" =
      "unexpected format for ID (" ++ id ++ "), expected APPID/BRANCHNAME" := by
    apply String.ext; simp [String.data_append, branchResourceIDSeparator]
  rw [e1, e2]
  constructor
  · intro m hm
    rcases BackendEnvironmentParse_cases id with ⟨p, d, h⟩ | h
    · rw [h] at hm; simp at hm
    · rw [h] at hm
      simp at hm
      exact ⟨hm.symm, hm.symm⟩
  · intro m hm
    rcases BranchParse_cases id with ⟨p, d, h⟩ | h
    · rw [h] at hm; simp at hm
    · rw [h] at hm
      simp at hm
      exact ⟨hm.symm, hm.symm⟩

/-- C7: the two codecs agree: the create functions are equal, and on every
identifier the parse functions return the same two strings, fail together,
and their error texts are one common text followed by `ENVIRONMENTNAME` and by
`BRANCHNAME`. -/
theorem codecs_agree :
    (∀ a b : String, BackendEnvironmentCreateResourceID a b = BranchCreateResourceID a b) ∧
    (∀ id : String,
      (BackendEnvironmentParseResourceID id).1 = (BranchParseResourceID id).1 ∧
      (BackendEnvironmentParseResourceID id).2.1 = (BranchParseResourceID id).2.1 ∧
      ((BackendEnvironmentParseResourceID id).2.2 = none ↔
        (BranchParseResourceID id).2.2 = none) ∧
      (∀ m₁ m₂, (BackendEnvironmentParseResourceID id).2.2 = some m₁ →
        (BranchParseResourceID id).2.2 = some m₂ →
        ∃ common, m₁ = common ++ "ENVIRONMENTNAME" ∧ m₂ = common ++ "BRANCHNAME")) := by
  refine ⟨fun _ _ => rfl, ?_⟩
  intro id
  rcases BackendEnvironmentParse_cases id with ⟨p, d, h⟩ | h
  · have h2 : BranchParseResourceID id = (p, d, none) :=
      (BranchParse_ok_iff id p d).mpr ((BackendEnvironmentParse_ok_iff id p d).mp h)
    rw [h, h2]
    simp
  · rcases BranchParse_cases id with ⟨p, d, h2⟩ | h2
    · have h3 : BackendEnvironmentParseResourceID id = (p, d, none) :=
        (BackendEnvironmentParse_ok_iff id p d).mpr ((BranchParse_ok_iff id p d).mp h2)
      rw [h3] at h
      simp at h
    · rw [h, h2]
      refine ⟨rfl, rfl, by simp, ?_⟩
      intro m₁ m₂ h₁ h₂
      refine ⟨"unexpected format for ID (" ++ id ++ "), expected APPID/", ?_, ?_⟩
      · simp at h₁
        rw [← h₁]
        apply String.ext; simp [String.data_append]
      · simp at h₂
        rw [← h₂]
        apply String.ext; simp [String.data_append]

/-! ## The lookup accessors -/

/-- C8: each of the four accessors normalises not-found: it returns a
`NotFoundError` exactly when the error of the call has the code
`NotFoundException` or the call succeeds without an entity, returns every
other error of the call as it is, returns the entity of a success, and always
returns exactly one of entity and error. -/
theorem lookup_normalises_notFound {TApp TBackendEnvironment TBranch TWebhook : Type}
    (conn : AmplifyConn TApp TBackendEnvironment TBranch TWebhook)
    (id appID name : String) :
    NormalisesNotFound ({ AppId := id } : GetAppInput)
      ((conn.GetApp { AppId := id }).1.bind (·.App))
      (conn.GetApp { AppId := id }).2
      (AppByID conn id) ∧
    NormalisesNotFound ({ AppId := appID, EnvironmentName := name } : GetBackendEnvironmentInput)
      ((conn.GetBackendEnvironment { AppId := appID, EnvironmentName := name }).1.bind
        (·.BackendEnvironment))
      (conn.GetBackendEnvironment { AppId := appID, EnvironmentName := name }).2
      (BackendEnvironmentByAppIDAndEnvironmentName conn appID name) ∧
    NormalisesNotFound ({ AppId := appID, BranchName := name } : GetBranchInput)
      ((conn.GetBranch { AppId := appID, BranchName := name }).1.bind (·.Branch))
      (conn.GetBranch { AppId := appID, BranchName := name }).2
      (BranchByAppIDAndBranchName conn appID name) ∧
    NormalisesNotFound ({ WebhookId := id } : GetWebhookInput)
      ((conn.GetWebhook { WebhookId := id }).1.bind (·.Webhook))
      (conn.GetWebhook { WebhookId := id }).2
      (WebhookByID conn id) :=
  ⟨normalisesNotFound_core _ _ _, normalisesNotFound_core _ _ _,
   normalisesNotFound_core _ _ _, normalisesNotFound_core _ _ _⟩

/-! ## The replication resource -/

/-- A failure that is a `RequestFailure` with a status other than 404 is
returned by Read, and the resource data stay as they are. -/
theorem Read_returns_request_failure {TConfig TValue : Type}
    (flatten : TConfig → TValue) (setError : TValue → Option GoError)
    (s3conn : S3Conn TConfig) (d : ResourceData TValue) (e : GoError) (statusCode : Int)
    (herr : (s3conn.GetBucketReplication { Bucket := d.Id }).2 = some e)
    (hrf : e.assertRequestFailure = some statusCode) (hcode : statusCode ≠ 404) :
    resourceAwsS3BucketReplicationRead flatten setError s3conn d = (some e, d) := by
  unfold resourceAwsS3BucketReplicationRead
  rcases hcall : s3conn.GetBucketReplication { Bucket := d.Id } with ⟨replication, err⟩
  rw [hcall] at herr
  simp only at herr
  subst herr
  simp [hrf, hcode]

/-- When the call answers with an output without `ReplicationConfiguration`
and either succeeds or fails with status 404, Read returns nil and leaves the
resource data as they are. -/
theorem Read_absent_configuration {TConfig TValue : Type}
    (flatten : TConfig → TValue) (setError : TValue → Option GoError)
    (s3conn : S3Conn TConfig) (d : ResourceData TValue)
    (hout : (s3conn.GetBucketReplication { Bucket := d.Id }).1.ReplicationConfiguration = none)
    (herr : (s3conn.GetBucketReplication { Bucket := d.Id }).2 = none ∨
      ∃ e, (s3conn.GetBucketReplication { Bucket := d.Id }).2 = some e ∧
        e.assertRequestFailure = some 404) :
    resourceAwsS3BucketReplicationRead flatten setError s3conn d = (none, d) := by
  unfold resourceAwsS3BucketReplicationRead
  rcases hcall : s3conn.GetBucketReplication { Bucket := d.Id } with ⟨replication, err⟩
  rw [hcall] at herr hout
  simp only at herr hout
  rcases herr with h | ⟨e, h, h404⟩
  · subst h
    simp [hout]
  · subst h
    simp [hout, h404]

/-- Any failure that is not a `RequestFailure` is dropped by Read: behind it
the handler goes on as after a success. -/
theorem Read_drops_other_failure {TConfig TValue : Type}
    (flatten : TConfig → TValue) (setError : TValue → Option GoError)
    (s3conn : S3Conn TConfig) (d : ResourceData TValue) (e : GoError)
    (hout : (s3conn.GetBucketReplication { Bucket := d.Id }).1.ReplicationConfiguration = none)
    (herr : (s3conn.GetBucketReplication { Bucket := d.Id }).2 = some e)
    (hrf : e.assertRequestFailure = none) :
    resourceAwsS3BucketReplicationRead flatten setError s3conn d = (none, d) := by
  unfold resourceAwsS3BucketReplicationRead
  rcases hcall : s3conn.GetBucketReplication { Bucket := d.Id } with ⟨replication, err⟩
  rw [hcall] at herr hout
  simp only at herr hout
  subst herr
  simp [hout, hrf]

/-- C9 at the failing input: the call fails because the request could not be
sent (an `awserr.Error` with code `RequestError`, no HTTP status, so not a
404), and Read returns nil instead of that error. -/
theorem Read_returns_nil_on_send_failure :
    (GoError.awsError "RequestError" "RequestError: send request failed").assertRequestFailure
      = none ∧
    resourceAwsS3BucketReplicationRead (fun c : String => [c]) (fun _ => none)
      { GetBucketReplication := fun _ =>
          ({ ReplicationConfiguration := none },
            some (GoError.awsError "RequestError" "RequestError: send request failed")),
        DeleteBucketReplication := fun _ => none }
      { Id := "source-bucket", bucket := "source-bucket", replication_configuration := [] } =
    (none, { Id := "source-bucket", bucket := "source-bucket", replication_configuration := [] }) := by
  decide

/-- C10: Delete returns nil and clears the resource ID when the call
succeeds, returns nil when the call fails with an `awserr.Error` of code
`NoSuchBucket`, and on every other failure returns an error and leaves the
resource data, the ID included, as they are. -/
theorem Delete_idempotent {TConfig TValue : Type}
    (s3conn : S3Conn TConfig) (d : ResourceData TValue) :
    (s3conn.DeleteBucketReplication { Bucket := d.bucket } = none →
      resourceAwsS3BucketReplicationDelete s3conn d = (none, { d with Id := "" })) ∧
    (∀ e, s3conn.DeleteBucketReplication { Bucket := d.bucket } = some e →
      e.assertAwsError = some "NoSuchBucket" →
      (resourceAwsS3BucketReplicationDelete s3conn d).1 = none) ∧
    (∀ e, s3conn.DeleteBucketReplication { Bucket := d.bucket } = some e →
      e.assertAwsError ≠ some "NoSuchBucket" →
      (resourceAwsS3BucketReplicationDelete s3conn d).1 ≠ none ∧
      (resourceAwsS3BucketReplicationDelete s3conn d).2 = d) := by
  refine ⟨?_, ?_, ?_⟩
  · intro h
    simp [resourceAwsS3BucketReplicationDelete, h]
  · intro e h hcode
    simp [resourceAwsS3BucketReplicationDelete, h, hcode]
  · intro e h hcode
    simp [resourceAwsS3BucketReplicationDelete, h, hcode]

end TerraformAws
